import Mathlib

set_option maxHeartbeats 1000000

namespace ZkevmSpec

/-! ## Byte-level encoding primitives

The Rust code manipulates 32-byte canonical representations of scalar field
elements (`Fr::to_bytes` / `Fr::from_repr`, `Scalar::to_bytes` /
`Scalar::from_bytes` are little-endian canonical encodings, while
`U256::to_be_bytes` / `U256::from_big_endian` are big-endian).  Bytes are
modelled as `Nat` values (with `< 256` hypotheses where a claim needs them). -/

/-- Little-endian byte encoding of a natural number into a fixed number of bytes,
dropping overflow beyond the given width (as Rust fixed-width encodings do). -/
def natToLEBytes : Nat → Nat → List Nat
  | 0, _ => []
  | n + 1, v => v % 256 :: natToLEBytes n (v / 256)

/-- Numeric value of a little-endian byte list. -/
def leBytesToNat : List Nat → Nat
  | [] => 0
  | b :: rest => b + 256 * leBytesToNat rest

/-- Numeric value of a big-endian byte list. -/
def beBytesToNat (l : List Nat) : Nat :=
  leBytesToNat l.reverse

/-- Big-endian encoding, the reverse of the little-endian one. -/
def natToBEBytes (n v : Nat) : List Nat :=
  (natToLEBytes n v).reverse

/-! ## Scalar fields

`Fr` is the BN254 scalar field used by the halo2 proof system
(`halo2_proofs::halo2curves::bn256::Fr`); `Scalar` is the BLS12-381 scalar
field used for EIP-4844 blob polynomial evaluation
(`halo2_proofs::halo2curves::bls12_381::Scalar`).  Both are modelled as
`Fin` of the respective (prime) modulus, with canonical 32-byte
little-endian encodings. -/

/-- Modulus of the BN254 scalar field `Fr`. -/
def r_BN254 : Nat :=
  21888242871839275222246405745257275088548364400416034343698204186575808495617

instance : NeZero r_BN254 := ⟨by norm_num [r_BN254]⟩

/-- The BN254 scalar field. -/
abbrev Fr := Fin r_BN254

/-- Modulus of the BLS12-381 scalar field, `BLS_MODULUS` in
`aggregator/src/blob_consistency/eip4844.rs` (via `barycentric`). -/
def BLS_MODULUS : Nat :=
  52435875175126190479447740508185965837690552500527637822603658699938581184513

instance : NeZero BLS_MODULUS := ⟨by norm_num [BLS_MODULUS]⟩

/-- The BLS12-381 scalar field. -/
abbrev Scalar := Fin BLS_MODULUS

/-- Embedding of `serialize_fr` (prover/src/utils/io.rs): `f.to_bytes()`,
the canonical 32-byte little-endian representation. -/
def serialize_fr (f : Fr) : List Nat :=
  natToLEBytes 32 f.val

/-- Embedding of `deserialize_fr` (prover/src/utils/io.rs):
`Fr::from_repr(buf.try_into().unwrap()).unwrap()`.  The Rust code panics when
the buffer is not exactly 32 bytes or the value is non-canonical; panics are
modelled as `none`. -/
def deserialize_fr (buf : List Nat) : Option Fr :=
  if h : buf.length = 32 ∧ leBytesToNat buf < r_BN254 then
    some ⟨leBytesToNat buf, h.2⟩
  else
    none

/-- Embedding of `Scalar::from_bytes` (halo2curves): reads a 32-byte
little-endian representation, succeeding exactly when it is canonical. -/
def Scalar.from_bytes (buf : List Nat) : Option Scalar :=
  if h : buf.length = 32 ∧ leBytesToNat buf < BLS_MODULUS then
    some ⟨leBytesToNat buf, h.2⟩
  else
    none

/-- Embedding of `Scalar::to_bytes` (halo2curves): the canonical 32-byte
little-endian representation. -/
def Scalar.to_bytes (s : Scalar) : List Nat :=
  natToLEBytes 32 s.val

/-! ## Instance (public input) serialization — prover/src/proof/mod.rs -/

/-- Embedding of `serialize_instance` (prover/src/proof/mod.rs): each field
element's canonical little-endian bytes, reversed to big-endian, concatenated.
The function's own `assert_eq!(bytes.len() % 32, 0)` always passes (proved in
the theorems below) and is therefore not threaded through as an `Option`. -/
def serialize_instance : List Fr → List Nat
  | [] => []
  | f :: rest => (serialize_fr f).reverse ++ serialize_instance rest

/-- Embedding of `serialize_instances` (prover/src/proof/mod.rs):
`assert_eq!(instances.len(), 1)` followed by `serialize_instance(&instances[0])`.
The assertion failure (any instance matrix that is not single-column) is
modelled as `none`. -/
def serialize_instances : List (List Fr) → Option (List Nat)
  | [inst] => some (serialize_instance inst)
  | _ => none

/-- Rust's `slice::chunks(32)`: splits a byte list into consecutive 32-byte
chunks, the last chunk possibly shorter. -/
def chunks32 (l : List Nat) : List (List Nat) :=
  if l.isEmpty then []
  else l.take 32 :: chunks32 (l.drop 32)
termination_by l.length
decreasing_by
  simp only [List.isEmpty_iff] at *
  have : l.length ≠ 0 := fun hh => by simp [List.length_eq_zero] at hh; simp_all
  simp only [List.length_drop]
  omega

/-- Deserialize each 32-byte chunk via `deserialize_fr` after byte-reversal
(big-endian to little-endian); a panic in any chunk aborts the whole
computation. -/
def deserializeChunks : List (List Nat) → Option (List Fr)
  | [] => some []
  | c :: rest =>
    match deserialize_fr c.reverse, deserializeChunks rest with
    | some f, some fs => some (f :: fs)
    | _, _ => none

/-- Embedding of `ProofV2::deserialize_instances` (prover/src/proof/proof_v2.rs):
`vec![ instances.chunks(32).map(|b| deserialize_fr(b.rev())).collect() ]`,
always producing a single-column matrix. -/
def ProofV2.deserialize_instances (bytes : List Nat) : Option (List (List Fr)) :=
  (deserializeChunks (chunks32 bytes)).map fun v => [v]

/-! ## Proof artifacts — prover/src/proof -/

/-- Embedding of `snark_verifier_sdk::Snark`: an opaque structural protocol
descriptor, raw proof bytes, and public-input columns. -/
structure Snark where
  protocol : Nat
  proof : List Nat
  instances : List (List Fr)
deriving DecidableEq, Repr

/-- Modelled from the spec: `short_git_version` (a build-provenance string
obtained from `git` at runtime, code not under src/) is an arbitrary fixed
string; none of the verified claims depend on its value. -/
def short_git_version : String := "unknown"

/-- Embedding of `InnerProof` (prover/src/proof/mod.rs). -/
structure InnerProof where
  proof : List Nat
  instances : List Nat
  vk : List Nat
  git_version : String
deriving DecidableEq, Repr

/-- Embedding of `InnerProof::new` (prover/src/proof/mod.rs); the
`serialize_instances` assertion failure is modelled as `none`. -/
def InnerProof.new (proof : List Nat) (instances : List (List Fr)) (vk : List Nat) :
    Option InnerProof :=
  (serialize_instances instances).map fun bytes =>
    { proof := proof, instances := bytes, vk := vk, git_version := short_git_version }

/-- Embedding of `InnerProof::from_snark` (prover/src/proof/mod.rs). -/
def InnerProof.from_snark (snark : Snark) (vk : List Nat) : Option InnerProof :=
  (serialize_instances snark.instances).map fun bytes =>
    { proof := snark.proof, instances := bytes, vk := vk, git_version := short_git_version }

/-- Embedding of `InnerProof::instances` (prover/src/proof/mod.rs): decode the
stored bytes per 32-byte big-endian chunk, wrapping the result as the one and
only instance column. -/
def InnerProof.decoded_instances (p : InnerProof) : Option (List (List Fr)) :=
  (deserializeChunks (chunks32 p.instances)).map fun v => [v]

/-- Embedding of `ProofV2<Inner>` (prover/src/proof/proof_v2.rs): the inner
layer-specific metadata plus raw proof bytes, serialized instances, serialized
verifying key and build provenance. -/
structure ProofV2 (Inner : Type) where
  inner : Inner
  proof : List Nat
  instances : List Nat
  vk : List Nat
  git_version : String

/-- Embedding of `ProofV2::new` (prover/src/proof/proof_v2.rs): serialize the
snark's instances (assert failure modelled as `none`) and assemble; the
verifying key bytes are passed in already serialized. -/
def ProofV2.new {Inner : Type} (snark : Snark) (vk : List Nat) (inner : Inner) :
    Option (ProofV2 Inner) :=
  (serialize_instances snark.instances).map fun bytes =>
    { inner := inner, proof := snark.proof, instances := bytes, vk := vk,
      git_version := short_git_version }

/-! ## Bundle proof and calldata — prover/src/proof/proof_v2.rs -/

/-- Embedding of `BatchProverError` (prover/src/aggregator/error.rs). -/
inductive BatchProverError where
  | VerifyingKeyMismatch (layer expected found : String)
  | VerifyingKeyNotFound (layer expected : String)
  | ChunkProtocolMismatch (index : Nat) (expected found : String)
  | SanityEVMVerifier
  | Verification
  | VerifierCodeMissing
  | PublicInputsMismatch (expected got : Nat)
  | Custom (msg : String)
deriving DecidableEq, Repr

/-- The number of scalar field elements used to encode the KZG accumulator
(`ACCUMULATOR_LEN` in prover/src/proof/proof_v2.rs). -/
def ACCUMULATOR_LEN : Nat := 12

/-- Each scalar field element is encoded using 32 bytes
(`ACCUMULATOR_BYTES` in prover/src/proof/proof_v2.rs). -/
def ACCUMULATOR_BYTES : Nat := ACCUMULATOR_LEN * 32

/-- The number of public-input field elements carried forward from the Layer-5
recursion circuit (`PUBLIC_INPUT_LEN` in prover/src/proof/proof_v2.rs). -/
def PUBLIC_INPUT_LEN : Nat := 13

/-- Byte length of the non-accumulator public input
(`PUBLIC_INPUT_BYTES` in prover/src/proof/proof_v2.rs). -/
def PUBLIC_INPUT_BYTES : Nat := PUBLIC_INPUT_LEN * 32

/-- Embedding of `BundleProofV2 = ProofV2<BundleProofV2Metadata>`
(prover/src/proof/proof_v2.rs); the inner metadata is the unit
`BundleProofV2Metadata`, so only the shared `ProofV2` fields remain. -/
structure BundleProofV2 where
  proof : List Nat
  instances : List Nat
  vk : List Nat
  git_version : String
deriving DecidableEq, Repr

/-- Embedding of `BundleProofV2::new_from_raw` (prover/src/proof/proof_v2.rs):
sanity check on the number of public-input bytes, then assemble the proof. -/
def BundleProofV2.new_from_raw (proof instances vk : List Nat) :
    Except BatchProverError BundleProofV2 :=
  let expected_len := ACCUMULATOR_BYTES + PUBLIC_INPUT_BYTES
  let got_len := instances.length
  if got_len ≠ expected_len then
    .error (.PublicInputsMismatch expected_len got_len)
  else
    .ok { proof := proof, instances := instances, vk := vk,
          git_version := short_git_version }

/-- Embedding of `BundleProofV2::calldata` (prover/src/proof/proof_v2.rs):
`[ public_input_bytes | accumulator_bytes | proof ]` as a flat concatenation. -/
def BundleProofV2.calldata (p : BundleProofV2) : List Nat :=
  p.instances ++ p.proof

/-! ## Chunk info comparison — prover/src/proof/chunk.rs -/

/-- Embedding of `aggregator::ChunkInfo` restricted to the six fields read by
`compare_chunk_info`; `H256` values are byte lists, `tx_bytes` an arbitrary
byte list. -/
structure ChunkInfo where
  chain_id : Nat
  prev_state_root : List Nat
  post_state_root : List Nat
  withdraw_root : List Nat
  data_hash : List Nat
  tx_bytes : List Nat
deriving DecidableEq, Repr

/-- Error message produced by the `compare_field!` macro in
prover/src/proof/chunk.rs: `"{name} chunk different {field}: {lhs} != {rhs}"`.
The model keeps the name and field-name parts, which the claims are about, and
elides the `Display`-rendered lhs/rhs values. -/
def chunkDiffMsg (name field : String) : String :=
  name ++ " chunk different " ++ field

/-- Embedding of `compare_chunk_info` (prover/src/proof/chunk.rs): compare the
six fields in the fixed source order, failing on the first mismatch. -/
def compare_chunk_info (name : String) (lhs rhs : ChunkInfo) : Except String Unit :=
  if lhs.chain_id ≠ rhs.chain_id then
    .error (chunkDiffMsg name "chain_id")
  else if lhs.prev_state_root ≠ rhs.prev_state_root then
    .error (chunkDiffMsg name "prev_state_root")
  else if lhs.post_state_root ≠ rhs.post_state_root then
    .error (chunkDiffMsg name "post_state_root")
  else if lhs.withdraw_root ≠ rhs.withdraw_root then
    .error (chunkDiffMsg name "withdraw_root")
  else if lhs.data_hash ≠ rhs.data_hash then
    .error (chunkDiffMsg name "data_hash")
  else if lhs.tx_bytes ≠ rhs.tx_bytes then
    .error (chunkDiffMsg name "tx_bytes")
  else
    .ok ()

/-! ## Disk-cached snark generation — prover/src/common/prover/{compression,recursion,aggregation,inner}.rs

The four `load_or_gen_*_snark` methods share one shape: probe the cache path
`{dir}/{kind}_snark_{id}_{name}.json`, return a successfully deserialized
artifact as-is, otherwise generate and persist.  The filesystem is modelled as
a map from paths to the `Option` of a successfully deserializable artifact
(`read_json_deep` failure, whether missing file or malformed JSON, is `none`);
`write_json` followed by `read_json_deep` of the same serde-JSON value is
assumed to round-trip.  The snark the circuit adapter would produce is passed
in as `gen`, and the number of adapter invocations is returned so that the
cache-idempotence claims can count them. -/

/-- Cache path `{dir}/{kind}_snark_{id}_{name}.json` used by all four
`load_or_gen_*_snark` methods. -/
def snarkPath (dir kind id name : String) : String :=
  dir ++ "/" ++ kind ++ "_snark_" ++ id ++ "_" ++ name ++ ".json"

/-- A filesystem state: each path maps to the artifact a `read_json_deep` at
that path would successfully produce, if any. -/
def FsState (S : Type) := String → Option S

/-- Embedding of the shared `load_or_gen` shape of
`Prover::load_or_gen_{comp,recursion,agg,inner}_snark`: returns the resulting
snark, the filesystem state after the call, and the number of circuit-adapter
(generation) invocations performed. -/
def load_or_gen_snark {S : Type} (kind name id : String) (fs : FsState S) (gen : S)
    (output_dir : Option String) : S × FsState S × Nat :=
  match output_dir with
  | some dir =>
    match fs (snarkPath dir kind id name) with
    | some snark => (snark, fs, 0)
    | none =>
      let snark := gen
      (snark, Function.update fs (snarkPath dir kind id name) (some snark), 1)
  | none => (gen, fs, 1)

/-- Embedding of `Prover::load_or_gen_comp_snark` (compression.rs). -/
def load_or_gen_comp_snark {S : Type} (name id : String) (fs : FsState S) (gen : S)
    (output_dir : Option String) : S × FsState S × Nat :=
  load_or_gen_snark "compression" name id fs gen output_dir

/-- Embedding of `Prover::load_or_gen_recursion_snark` (recursion.rs). -/
def load_or_gen_recursion_snark {S : Type} (name id : String) (fs : FsState S) (gen : S)
    (output_dir : Option String) : S × FsState S × Nat :=
  load_or_gen_snark "recursion" name id fs gen output_dir

/-- Embedding of `Prover::load_or_gen_agg_snark` (aggregation.rs). -/
def load_or_gen_agg_snark {S : Type} (name id : String) (fs : FsState S) (gen : S)
    (output_dir : Option String) : S × FsState S × Nat :=
  load_or_gen_snark "aggregation" name id fs gen output_dir

/-- Embedding of `Prover::load_or_gen_inner_snark` (inner.rs). -/
def load_or_gen_inner_snark {S : Type} (name id : String) (fs : FsState S) (gen : S)
    (output_dir : Option String) : S × FsState S × Nat :=
  load_or_gen_snark "inner" name id fs gen output_dir

/-! ## Recursive aggregation engine — prover/src/common/prover/recursion.rs

`RecursionTask` lives in the `aggregator` crate and its definition is not under
src/ (only its caller, `Prover::gen_recursion_snark`, is) — it is modelled from
the spec.  The snark type is kept abstract, and the circuit-adapter step
`gen_snark_shplonk(params, pk, RecursionCircuit::new(params, batch, cur, rng, round), ...)`
is abstracted as a function `prove round batch cur`. -/

/-- Modelled from the spec: `RecursionTask` (aggregator crate, not under src/)
"holds the ordered sequence of batch Snarks not yet folded". -/
structure RecursionTask (S : Type) where
  remaining : List S

/-- Modelled from the spec: `RecursionTask::new` initializes the task with the
snarks not yet folded. -/
def RecursionTask.new {S : Type} (snarks : List S) : RecursionTask S :=
  ⟨snarks⟩

/-- Modelled from the spec: `task.completed()` "holds when no further batches
remain to fold". -/
def RecursionTask.completed {S : Type} (t : RecursionTask S) : Bool :=
  t.remaining.isEmpty

/-- Modelled from the spec: `task.iter_snark()` is the next batch snark to
fold (the loop only calls it on a non-completed task; the empty case is
modelled as `none`). -/
def RecursionTask.iter_snark {S : Type} (t : RecursionTask S) : Option S :=
  t.remaining.head?

/-- Modelled from the spec: `task.state_transition(round)` "consumes exactly
one unit of remaining work", producing the snarks still to fold. -/
def RecursionTask.state_transition {S : Type} (t : RecursionTask S) (_round : Nat) :
    List S :=
  t.remaining.tail

/-- The `while !task.completed()` loop of `Prover::gen_recursion_snark`
(prover/src/common/prover/recursion.rs): fold the head batch snark into
`cur_snark`, increment the round, and transition the task; returns the final
snark together with the final round count. -/
def recursionLoop {S : Type} (prove : Nat → S → S → S) (cur : S) (t : RecursionTask S)
    (n_rounds : Nat) : S × Nat :=
  match h : t.remaining with
  | [] => (cur, n_rounds)
  | b :: _rest =>
    recursionLoop prove (prove n_rounds b cur)
      (RecursionTask.new (t.state_transition (n_rounds + 1))) (n_rounds + 1)
termination_by t.remaining.length
decreasing_by
  simp only [RecursionTask.new, RecursionTask.state_transition, h]
  simp

/-- Embedding of `Prover::gen_recursion_snark`
(prover/src/common/prover/recursion.rs): `assert!(!batch_snarks.is_empty())`
(modelled as `none`) guards the whole body — bootstrap and loop alike — after
which the loop starts from the legitimate initial snark `init` at round 0.
The two-phase key bootstrap is external (`initial_recursion_snark` and key
generation are not under src/); its product is the `init` snark. -/
def gen_recursion_snark {S : Type} (prove : Nat → S → S → S) (init : S)
    (batch_snarks : List S) : Option (S × Nat) :=
  if batch_snarks.isEmpty then
    none
  else
    some (recursionLoop prove init (RecursionTask.new batch_snarks) 0)

/-- Reference fold: `foldSnarks prove n cur l` applies one `prove` round per
batch snark, threading the round number; used to state what the loop returns. -/
def foldSnarks {S : Type} (prove : Nat → S → S → S) : Nat → S → List S → S
  | _, cur, [] => cur
  | n, cur, b :: rest => foldSnarks prove (n + 1) (prove n b cur) rest

/-! ## Blob consistency subsystem — aggregator/src/blob_consistency/eip4844.rs

`H256` digests are 32-element byte lists, `U256` words are `Nat` values
(with `< 2^256` hypotheses where a claim needs them).  The KZG commitment
(c-kzg crate), SHA-256 (sha2 crate) and the barycentric/point-evaluation
witness generator (`blob.rs`/`barycentric.rs`, not under src/) are external
collaborators, passed in as abstract functions. -/

/-- Number of data bytes packed per blob coefficient.  Modelled from the spec:
`N_DATA_BYTES_PER_COEFFICIENT` is defined in `aggregation/batch_data.rs`
(not under src/); the spec fixes 31 data bytes per 32-byte field element. -/
def N_DATA_BYTES_PER_COEFFICIENT : Nat := 31

/-- Byte width of a `U256` (`N_BYTES_U256` in the aggregator constants). -/
def N_BYTES_U256 : Nat := 32

/-- `BLOB_WIDTH` (aggregator/src/blob_consistency/eip4844.rs). -/
def BLOB_WIDTH : Nat := 4096

/-- `N_BLOB_BYTES = BLOB_WIDTH * N_DATA_BYTES_PER_COEFFICIENT`
(aggregator/src/blob_consistency/eip4844.rs). -/
def N_BLOB_BYTES : Nat := BLOB_WIDTH * N_DATA_BYTES_PER_COEFFICIENT

/-- The EIP-4844 KZG versioned-hash tag byte,
`revm_primitives::VERSIONED_HASH_VERSION_KZG = 0x01`. -/
def VERSIONED_HASH_VERSION_KZG : Nat := 1

/-- A `BLOB_WIDTH x 32` byte matrix, indexed as coefficient index then
big-endian byte position (the Rust `[[0u8; N_BYTES_U256]; BLOB_WIDTH]`). -/
def CoeffMat := Nat → Nat → Nat

/-- The all-zeroes coefficient byte matrix. -/
def zeroCoeffMat : CoeffMat := fun _ _ => 0

/-- One indexed store `coefficients[i][j] = v` of the `get_coefficients`
loop body. -/
def setMat (m : CoeffMat) (i j v : Nat) : CoeffMat :=
  fun a b => if a = i ∧ b = j then v else m a b

/-- The `for (i, &byte) in blob_bytes.iter().enumerate()` loop of
`get_coefficients`, carrying the running byte index `i`:
`coefficients[i / 31][1 + (i % 31)] = byte`. -/
def fillCoefficients (i : Nat) (blob_bytes : List Nat) (m : CoeffMat) : CoeffMat :=
  match blob_bytes with
  | [] => m
  | b :: rest =>
    fillCoefficients (i + 1) rest
      (setMat m (i / N_DATA_BYTES_PER_COEFFICIENT)
        (1 + i % N_DATA_BYTES_PER_COEFFICIENT) b)

/-- Embedding of `get_coefficients` (aggregator/src/blob_consistency/eip4844.rs):
assert the length bound (`none` on panic), run the fill loop over a zeroed
matrix, and read each of the `BLOB_WIDTH` coefficients as a 32-byte big-endian
`U256` (`U256::from_big_endian`). -/
def get_coefficients (blob_bytes : List Nat) : Option (List Nat) :=
  if blob_bytes.length ≤ N_BLOB_BYTES then
    some ((List.range BLOB_WIDTH).map fun j =>
      beBytesToNat ((List.range N_BYTES_U256).map
        (fillCoefficients 0 blob_bytes zeroCoeffMat j)))
  else
    none

/-- Embedding of `kzg_to_versioned_hash`
(aggregator/src/blob_consistency/eip4844.rs): SHA-256 of the commitment bytes
with byte 0 overwritten by the KZG version tag.  SHA-256 is the external
`sha2` crate, passed in as `sha`. -/
def kzg_to_versioned_hash (sha : List Nat → List Nat) (commitment : List Nat) :
    List Nat :=
  (sha commitment).set 0 VERSIONED_HASH_VERSION_KZG

/-- Embedding of `get_versioned_hash`
(aggregator/src/blob_consistency/eip4844.rs): commit to the coefficient blob
via the external c-kzg collaborator `kzg_commit`, then tag its hash. -/
def get_versioned_hash (sha : List Nat → List Nat) (kzg_commit : List Nat → List Nat)
    (coefficients : List Nat) : List Nat :=
  kzg_to_versioned_hash sha (kzg_commit coefficients)

/-- Embedding of `digest_from_word`
(aggregator/src/blob_consistency/eip4844.rs): `H256::from_slice(x.to_be_bytes())`. -/
def digest_from_word (x : Nat) : List Nat :=
  natToBEBytes 32 x

/-- Embedding of `word_from_digest`
(aggregator/src/blob_consistency/eip4844.rs): `U256::from_big_endian(bytes)`. -/
def word_from_digest (x : List Nat) : Nat :=
  beBytesToNat x

/-- Embedding of `digest_from_scalar`
(aggregator/src/blob_consistency/eip4844.rs): little-endian canonical bytes,
reversed into a big-endian digest. -/
def digest_from_scalar (x : Scalar) : List Nat :=
  (Scalar.to_bytes x).reverse

/-- Embedding of `scalar_from_word`
(aggregator/src/blob_consistency/eip4844.rs): full big-integer
`x.div_mod(BLS_MODULUS)`, keeping the remainder, then
`Scalar::from_bytes(remainder.to_le_bytes()).expect(..)` — the `expect` panic
branch is modelled as `none`. -/
def scalar_from_word (x : Nat) : Option Scalar :=
  Scalar.from_bytes (natToLEBytes 32 (x % BLS_MODULUS))

/-- Embedding of `scalar_from_digest`
(aggregator/src/blob_consistency/eip4844.rs). -/
def scalar_from_digest (x : List Nat) : Option Scalar :=
  scalar_from_word (word_from_digest x)

/-- Modelled from the spec: the `PointEvaluationAssignments` produced by
`blob.rs` (not under src/) — "a challenge (Fiat–Shamir digest over the batch
structure and blob)" and the polynomial evaluation at that challenge, both as
`U256` words. -/
structure PointEvaluationAssignments where
  challenge_digest : Nat
  evaluation : Nat

/-- Embedding of `BlobConsistencyWitness`
(aggregator/src/blob_consistency/eip4844.rs). -/
structure BlobConsistencyWitness where
  blob_versioned_hash : List Nat
  challenge_digest : List Nat
  evaluation : Scalar
deriving DecidableEq, Repr

/-- Embedding of `BlobConsistencyWitness::new`
(aggregator/src/blob_consistency/eip4844.rs), parameterized over the external
collaborators: `sha` (sha2), `kzg_commit` (c-kzg), and `pea`
(`PointEvaluationAssignments::new` from blob.rs, a pure function of the batch
data, the raw bytes and the versioned hash — modelled from the spec).  The
`batch_data : B` argument is the `BatchData<N_SNARKS>` metadata, kept
abstract.  Panics (`get_coefficients` length assert, `scalar_from_word`
expect) are modelled as `none`. -/
def BlobConsistencyWitness.new {B : Type} (sha : List Nat → List Nat)
    (kzg_commit : List Nat → List Nat)
    (pea : B → List Nat → List Nat → PointEvaluationAssignments)
    (bytes : List Nat) (batch_data : B) : Option BlobConsistencyWitness := do
  let coeffs ← get_coefficients bytes
  let blob_versioned_hash := get_versioned_hash sha kzg_commit coeffs
  let point_evaluation_assignments := pea batch_data bytes blob_versioned_hash
  let evaluation ← scalar_from_word point_evaluation_assignments.evaluation
  pure
    { blob_versioned_hash := blob_versioned_hash,
      challenge_digest :=
        digest_from_word point_evaluation_assignments.challenge_digest,
      evaluation := evaluation }

/-- Embedding of `BlobConsistencyWitness::id`. -/
def BlobConsistencyWitness.id (w : BlobConsistencyWitness) : List Nat :=
  w.blob_versioned_hash

/-- Embedding of `BlobConsistencyWitness::challenge_digest` (the accessor,
returning the digest as a `U256` word). -/
def BlobConsistencyWitness.challenge_digest_word (w : BlobConsistencyWitness) : Nat :=
  word_from_digest w.challenge_digest

/-- Embedding of `BlobConsistencyWitness::challenge`. -/
def BlobConsistencyWitness.challenge (w : BlobConsistencyWitness) : Option Scalar :=
  scalar_from_digest w.challenge_digest

/-- Embedding of `BlobConsistencyWitness::evaluation` (the accessor). -/
def BlobConsistencyWitness.evaluation_acc (w : BlobConsistencyWitness) : Scalar :=
  w.evaluation

/-- Embedding of `BlobConsistencyWitness::blob_data_proof`:
`[challenge, evaluation].map(digest_from_scalar)`; inherits the `Option` of
the challenge conversion. -/
def BlobConsistencyWitness.blob_data_proof (w : BlobConsistencyWitness) :
    Option (List (List Nat)) :=
  w.challenge.map fun c => [digest_from_scalar c, digest_from_scalar w.evaluation]

/-! ## Supporting lemmas -/

theorem length_natToLEBytes (n v : Nat) : (natToLEBytes n v).length = n := by
  induction n generalizing v with
  | zero => rfl
  | succ k ih => simp [natToLEBytes, ih]

theorem leBytesToNat_natToLEBytes (n v : Nat) :
    leBytesToNat (natToLEBytes n v) = v % 256 ^ n := by
  induction n generalizing v with
  | zero => simp [natToLEBytes, leBytesToNat, Nat.mod_one]
  | succ k ih =>
    simp only [natToLEBytes, leBytesToNat, ih]
    rw [pow_succ, Nat.mul_comm (256 ^ k) 256, Nat.mod_mul]

theorem leBytesToNat_natToLEBytes_of_lt {n v : Nat} (h : v < 256 ^ n) :
    leBytesToNat (natToLEBytes n v) = v := by
  rw [leBytesToNat_natToLEBytes, Nat.mod_eq_of_lt h]

theorem leBytesToNat_append (l₁ l₂ : List Nat) :
    leBytesToNat (l₁ ++ l₂) = leBytesToNat l₁ + 256 ^ l₁.length * leBytesToNat l₂ := by
  induction l₁ with
  | nil => simp [leBytesToNat]
  | cons b rest ih =>
    simp only [List.cons_append, leBytesToNat, List.append_eq, ih, List.length_cons]
    ring

theorem leBytesToNat_lt (l : List Nat) (h : ∀ b ∈ l, b < 256) :
    leBytesToNat l < 256 ^ l.length := by
  induction l with
  | nil => simp [leBytesToNat]
  | cons b rest ih =>
    have hb : b < 256 := h b (List.mem_cons_self b rest)
    have hrest : leBytesToNat rest < 256 ^ rest.length :=
      ih fun x hx => h x (List.mem_cons_of_mem b hx)
    simp only [leBytesToNat, List.length_cons, pow_succ]
    calc b + 256 * leBytesToNat rest
        ≤ 255 + 256 * leBytesToNat rest := by omega
      _ < 256 * (leBytesToNat rest + 1) := by omega
      _ ≤ 256 * 256 ^ rest.length := by
          exact Nat.mul_le_mul_left 256 (Nat.succ_le_of_lt hrest)
      _ = 256 ^ rest.length * 256 := by ring

theorem BLS_MODULUS_pos : 0 < BLS_MODULUS := by norm_num [BLS_MODULUS]

theorem BLS_MODULUS_lt_pow : BLS_MODULUS < 256 ^ 32 := by norm_num [BLS_MODULUS]

theorem scalar_from_word_eq (x : Nat) :
    scalar_from_word x = some ⟨x % BLS_MODULUS, Nat.mod_lt x BLS_MODULUS_pos⟩ := by
  have hlt : x % BLS_MODULUS < BLS_MODULUS := Nat.mod_lt x BLS_MODULUS_pos
  have hval : leBytesToNat (natToLEBytes 32 (x % BLS_MODULUS)) = x % BLS_MODULUS :=
    leBytesToNat_natToLEBytes_of_lt (lt_trans hlt BLS_MODULUS_lt_pow)
  simp [scalar_from_word, Scalar.from_bytes, length_natToLEBytes, hval, hlt]

theorem recursionLoop_new_eq {S : Type} (prove : Nat → S → S → S) (l : List S)
    (cur : S) (n : Nat) :
    recursionLoop prove cur (RecursionTask.new l) n =
      (foldSnarks prove n cur l, n + l.length) := by
  induction l generalizing cur n with
  | nil =>
    rw [recursionLoop]
    simp [RecursionTask.new, foldSnarks]
  | cons b rest ih =>
    rw [recursionLoop]
    simp only [RecursionTask.new, RecursionTask.state_transition, List.tail_cons, foldSnarks]
    refine Eq.trans (ih (prove n b cur) (n + 1)) ?_
    simp only [Prod.mk.injEq, List.length_cons]
    refine ⟨trivial, by omega⟩

theorem foldSnarks_append {S : Type} (prove : Nat → S → S → S) (l : List S) (b : S)
    (n : Nat) (cur : S) :
    foldSnarks prove n cur (l ++ [b]) = prove (n + l.length) b (foldSnarks prove n cur l) := by
  induction l generalizing n cur with
  | nil => simp [foldSnarks]
  | cons x rest ih =>
    simp only [List.cons_append, List.append_eq, foldSnarks]
    rw [ih]
    have h : n + 1 + rest.length = n + (x :: rest).length := by
      simp only [List.length_cons]; omega
    rw [h]

theorem r_BN254_lt_pow : r_BN254 < 256 ^ 32 := by norm_num [r_BN254]

theorem deserialize_serialize_fr (f : Fr) : deserialize_fr (serialize_fr f) = some f := by
  have h1 : (serialize_fr f).length = 32 := length_natToLEBytes 32 f.val
  have h2 : leBytesToNat (serialize_fr f) = f.val :=
    leBytesToNat_natToLEBytes_of_lt (lt_trans f.isLt r_BN254_lt_pow)
  unfold deserialize_fr
  rw [dif_pos ⟨h1, h2 ▸ f.isLt⟩]
  exact congrArg some (Fin.ext h2)

theorem chunks32_nil : chunks32 [] = [] := by
  rw [chunks32]
  simp

theorem chunks32_append (c rest : List Nat) (h : c.length = 32) :
    chunks32 (c ++ rest) = c :: chunks32 rest := by
  have hc : c ≠ [] := by intro hc; simp [hc] at h
  rw [chunks32]
  simp only [List.isEmpty_eq_true, List.append_eq_nil, hc, false_and, if_false]
  rw [List.take_left' h, List.drop_left' h]

theorem length_serialize_instance (inst : List Fr) :
    (serialize_instance inst).length = 32 * inst.length := by
  induction inst with
  | nil => simp [serialize_instance]
  | cons f rest ih =>
    simp [serialize_instance, serialize_fr, length_natToLEBytes, ih]
    ring

theorem deserializeChunks_serialize (inst : List Fr) :
    deserializeChunks (chunks32 (serialize_instance inst)) = some inst := by
  induction inst with
  | nil =>
    simp only [serialize_instance, chunks32_nil, deserializeChunks]
  | cons f rest ih =>
    have hlen : ((serialize_fr f).reverse).length = 32 := by
      simp [serialize_fr, length_natToLEBytes]
    simp only [serialize_instance]
    rw [chunks32_append _ _ hlen]
    simp only [deserializeChunks, List.reverse_reverse, deserialize_serialize_fr, ih]

theorem serialize_instances_isSome_iff (m : List (List Fr)) :
    (serialize_instances m).isSome ↔ m.length = 1 := by
  rcases m with _ | ⟨a, _ | ⟨b, t⟩⟩ <;> simp [serialize_instances]

theorem fillCoefficients_spec (bytes : List Nat) (i : Nat) (m : CoeffMat) (j k : Nat) :
    fillCoefficients i bytes m j k =
      if 1 ≤ k ∧ k ≤ 31 ∧ i ≤ 31 * j + (k - 1) ∧ 31 * j + (k - 1) < i + bytes.length then
        bytes.getD (31 * j + (k - 1) - i) 0
      else m j k := by
  induction bytes generalizing i m with
  | nil =>
    have hcond : ¬(1 ≤ k ∧ k ≤ 31 ∧ i ≤ 31 * j + (k - 1) ∧
        31 * j + (k - 1) < i + ([] : List Nat).length) := by
      simp only [List.length_nil]
      omega
    simp only [fillCoefficients, if_neg hcond]
  | cons b rest ih =>
    simp only [fillCoefficients, N_DATA_BYTES_PER_COEFFICIENT]
    rw [ih]
    simp only [setMat, List.length_cons]
    split_ifs with h1 h2 h3 h4 h5
    · have hidx : 31 * j + (k - 1) - i = (31 * j + (k - 1) - (i + 1)) + 1 := by omega
      rw [hidx, List.getD_cons_succ]
    · omega
    · have hidx : 31 * j + (k - 1) - i = 0 := by omega
      rw [hidx, List.getD_cons_zero]
    · omega
    · omega
    · rfl

theorem fillCoefficients_zero_spec (bytes : List Nat) (j k : Nat) :
    fillCoefficients 0 bytes zeroCoeffMat j k =
      if 1 ≤ k ∧ k ≤ 31 ∧ 31 * j + (k - 1) < bytes.length then
        bytes.getD (31 * j + (k - 1)) 0
      else 0 := by
  rw [fillCoefficients_spec]
  by_cases h : 1 ≤ k ∧ k ≤ 31 ∧ 31 * j + (k - 1) < bytes.length
  · rw [if_pos ⟨h.1, h.2.1, Nat.zero_le _, by omega⟩, if_pos h, Nat.sub_zero]
  · rw [if_neg (by omega), if_neg h]
    rfl

theorem getD_lt_of_bytes (bytes : List Nat) (hb : ∀ x ∈ bytes, x < 256) (idx : Nat) :
    bytes.getD idx 0 < 256 := by
  induction bytes generalizing idx with
  | nil => simp [List.getD]
  | cons b rest ih =>
    cases idx with
    | zero =>
      rw [List.getD_cons_zero]
      exact hb b (List.mem_cons_self b rest)
    | succ n =>
      rw [List.getD_cons_succ]
      exact ih (fun x hx => hb x (List.mem_cons_of_mem b hx)) n

theorem beBytesToNat_cons_zero_lt (t : List Nat) (ht : t.length = 31)
    (hlt : ∀ x ∈ t, x < 256) : beBytesToNat (0 :: t) < 2 ^ 248 := by
  have hval : beBytesToNat (0 :: t) = leBytesToNat t.reverse := by
    simp [beBytesToNat, List.reverse_cons, leBytesToNat_append, leBytesToNat]
  have h2 := leBytesToNat_lt t.reverse
    (fun x hx => hlt x (List.mem_reverse.mp hx))
  rw [List.length_reverse, ht] at h2
  have hpow : (256 : Nat) ^ 31 = 2 ^ 248 := by
    rw [show (256 : Nat) = 2 ^ 8 by norm_num, ← pow_mul]
  rw [hval]
  omega

theorem two_pow_248_lt_BLS_MODULUS : 2 ^ 248 < BLS_MODULUS := by
  norm_num [BLS_MODULUS]

/-! ## Claim theorems -/

/-- C1: for every `BundleProofV2`, `calldata()` is exactly the stored
public-instance bytes followed by the stored proof bytes with no length
prefix; `new_from_raw` succeeds exactly when the supplied instance bytes are
`ACCUMULATOR_BYTES + PUBLIC_INPUT_BYTES = 800` bytes long (25 field elements:
12 accumulator plus 13 public-input values), and otherwise returns
`PublicInputsMismatch` carrying the expected and actual lengths, constructing
no proof. -/
theorem C1_bundle_calldata_new_from_raw :
    (∀ p : BundleProofV2, p.calldata = p.instances ++ p.proof) ∧
    ACCUMULATOR_BYTES + PUBLIC_INPUT_BYTES = 800 ∧
    ACCUMULATOR_LEN + PUBLIC_INPUT_LEN = 25 ∧
    ACCUMULATOR_BYTES + PUBLIC_INPUT_BYTES = 25 * 32 ∧
    ∀ proof instances vk : List Nat,
      BundleProofV2.new_from_raw proof instances vk =
        if instances.length = 800 then
          .ok { proof := proof, instances := instances, vk := vk,
                git_version := short_git_version }
        else
          .error (.PublicInputsMismatch 800 instances.length) := by
  refine ⟨fun p => rfl, rfl, rfl, rfl, fun proof instances vk => ?_⟩
  by_cases h : instances.length = 800 <;>
    simp [BundleProofV2.new_from_raw, ACCUMULATOR_BYTES, PUBLIC_INPUT_BYTES,
      ACCUMULATOR_LEN, PUBLIC_INPUT_LEN, h]

/-- C6: `compare_chunk_info` returns `Ok(())` exactly when the two `ChunkInfo`
values agree on all six compared fields, and on any disagreement returns an
error naming the first differing field (in the fixed source order) together
with the supplied name. -/
theorem C6_compare_chunk_info (name : String) (lhs rhs : ChunkInfo) :
    (compare_chunk_info name lhs rhs = .ok () ↔
      (lhs.chain_id = rhs.chain_id ∧ lhs.prev_state_root = rhs.prev_state_root ∧
       lhs.post_state_root = rhs.post_state_root ∧ lhs.withdraw_root = rhs.withdraw_root ∧
       lhs.data_hash = rhs.data_hash ∧ lhs.tx_bytes = rhs.tx_bytes)) ∧
    (lhs.chain_id ≠ rhs.chain_id →
      compare_chunk_info name lhs rhs = .error (chunkDiffMsg name "chain_id")) ∧
    (lhs.chain_id = rhs.chain_id → lhs.prev_state_root ≠ rhs.prev_state_root →
      compare_chunk_info name lhs rhs = .error (chunkDiffMsg name "prev_state_root")) ∧
    (lhs.chain_id = rhs.chain_id → lhs.prev_state_root = rhs.prev_state_root →
      lhs.post_state_root ≠ rhs.post_state_root →
      compare_chunk_info name lhs rhs = .error (chunkDiffMsg name "post_state_root")) ∧
    (lhs.chain_id = rhs.chain_id → lhs.prev_state_root = rhs.prev_state_root →
      lhs.post_state_root = rhs.post_state_root → lhs.withdraw_root ≠ rhs.withdraw_root →
      compare_chunk_info name lhs rhs = .error (chunkDiffMsg name "withdraw_root")) ∧
    (lhs.chain_id = rhs.chain_id → lhs.prev_state_root = rhs.prev_state_root →
      lhs.post_state_root = rhs.post_state_root → lhs.withdraw_root = rhs.withdraw_root →
      lhs.data_hash ≠ rhs.data_hash →
      compare_chunk_info name lhs rhs = .error (chunkDiffMsg name "data_hash")) ∧
    (lhs.chain_id = rhs.chain_id → lhs.prev_state_root = rhs.prev_state_root →
      lhs.post_state_root = rhs.post_state_root → lhs.withdraw_root = rhs.withdraw_root →
      lhs.data_hash = rhs.data_hash → lhs.tx_bytes ≠ rhs.tx_bytes →
      compare_chunk_info name lhs rhs = .error (chunkDiffMsg name "tx_bytes")) := by
  unfold compare_chunk_info
  split_ifs with h1 h2 h3 h4 h5 h6 <;> simp_all

/-- C6 witness: a pair of chunk infos differing only in `chain_id` is reported
as a `chain_id` mismatch naming the supplied comparison name. -/
theorem C6_compare_chunk_info_witness :
    compare_chunk_info "wit" ⟨1, [], [], [], [], []⟩ ⟨2, [], [], [], [], []⟩ =
      .error (chunkDiffMsg "wit" "chain_id") :=
  (C6_compare_chunk_info "wit" ⟨1, [], [], [], [], []⟩ ⟨2, [], [], [], [], []⟩).2.1
    (by decide)

/-- C8: for every `BlobConsistencyWitness`, `challenge()` is the 32-byte
challenge digest read as a 256-bit big-endian integer reduced modulo the BLS
scalar field modulus by a full big-integer remainder, and the canonical-bytes
conversion never hits its failure (`expect`) branch — stated generally for
`scalar_from_word` as well. -/
theorem C8_challenge_mod_reduction :
    (∀ w : BlobConsistencyWitness, ∃ s : Scalar, w.challenge = some s ∧
      (s : Nat) = word_from_digest w.challenge_digest % BLS_MODULUS) ∧
    (∀ x : Nat, ∃ s : Scalar, scalar_from_word x = some s ∧ (s : Nat) = x % BLS_MODULUS) := by
  refine ⟨fun w => ?_, fun x => ?_⟩
  · exact ⟨_, scalar_from_word_eq (word_from_digest w.challenge_digest), rfl⟩
  · exact ⟨_, scalar_from_word_eq x, rfl⟩

/-- C9: for any commitment, the versioned hash has byte 0 equal to the fixed
KZG version tag, and bytes 1..31 equal to the corresponding bytes of the
SHA-256 digest of the commitment (SHA-256 passed in as the external `sha`,
whose digests are 32 bytes). -/
theorem C9_versioned_hash_tag (sha : List Nat → List Nat) (commitment : List Nat)
    (h : (sha commitment).length = 32) :
    (kzg_to_versioned_hash sha commitment).getD 0 0 = VERSIONED_HASH_VERSION_KZG ∧
    (kzg_to_versioned_hash sha commitment).length = 32 ∧
    ∀ i, 1 ≤ i → i < 32 →
      (kzg_to_versioned_hash sha commitment).getD i 0 = (sha commitment).getD i 0 := by
  unfold kzg_to_versioned_hash
  rcases hl : sha commitment with _ | ⟨a, t⟩
  · rw [hl] at h; simp at h
  · rw [hl] at h
    refine ⟨by simp, by simpa using h, fun i h1 h2 => ?_⟩
    cases i with
    | zero => omega
    | succ j => simp

/-- C9 witness: the tag byte at a concrete commitment and digest function. -/
theorem C9_versioned_hash_tag_witness :
    (kzg_to_versioned_hash (fun _ => List.replicate 32 7) []).getD 0 0 =
      VERSIONED_HASH_VERSION_KZG :=
  (C9_versioned_hash_tag (fun _ => List.replicate 32 7) [] (by simp)).1

/-- C4: with an output directory, a cache hit at the path keyed by
`(stage kind, id, name)` is returned unchanged with no generation and no disk
write; a miss generates once and persists at that path before returning; hence
a second call with the same key returns the persisted snark with zero further
generator invocations (whatever the adapter would now produce).  The four
`load_or_gen_*_snark` siblings are the kind-specific instances. -/
theorem C4_cache_load_or_gen (S : Type) (kind name id dir : String)
    (fs : FsState S) (gen gen' : S) :
    (∀ s, fs (snarkPath dir kind id name) = some s →
      load_or_gen_snark kind name id fs gen (some dir) = (s, fs, 0)) ∧
    (fs (snarkPath dir kind id name) = none →
      load_or_gen_snark kind name id fs gen (some dir) =
        (gen, Function.update fs (snarkPath dir kind id name) (some gen), 1) ∧
      (load_or_gen_snark kind name id fs gen (some dir)).2.1 (snarkPath dir kind id name) =
        some gen) ∧
    (fs (snarkPath dir kind id name) = none →
      load_or_gen_snark kind name id (load_or_gen_snark kind name id fs gen (some dir)).2.1
          gen' (some dir) =
        ((load_or_gen_snark kind name id fs gen (some dir)).1,
         (load_or_gen_snark kind name id fs gen (some dir)).2.1, 0)) ∧
    load_or_gen_comp_snark name id fs gen (some dir) =
      load_or_gen_snark "compression" name id fs gen (some dir) ∧
    load_or_gen_recursion_snark name id fs gen (some dir) =
      load_or_gen_snark "recursion" name id fs gen (some dir) ∧
    load_or_gen_agg_snark name id fs gen (some dir) =
      load_or_gen_snark "aggregation" name id fs gen (some dir) ∧
    load_or_gen_inner_snark name id fs gen (some dir) =
      load_or_gen_snark "inner" name id fs gen (some dir) := by
  refine ⟨fun s hs => ?_, fun hn => ?_, fun hn => ?_, rfl, rfl, rfl, rfl⟩
  · simp [load_or_gen_snark, hs]
  · simp [load_or_gen_snark, hn, Function.update_same]
  · simp [load_or_gen_snark, hn, Function.update_same]

/-- C4 witness: on an empty filesystem, a second identical call returns the
persisted snark and its filesystem state unchanged, with zero generator
invocations, even though the adapter would now produce a different snark. -/
theorem C4_cache_load_or_gen_witness :
    load_or_gen_snark "compression" "n" "i"
        (load_or_gen_snark "compression" "n" "i" (fun _ => none : FsState Nat) 7
          (some "d")).2.1 9 (some "d") =
      ((load_or_gen_snark "compression" "n" "i" (fun _ => none : FsState Nat) 7
          (some "d")).1,
       (load_or_gen_snark "compression" "n" "i" (fun _ => none : FsState Nat) 7
          (some "d")).2.1,
       0) :=
  (C4_cache_load_or_gen Nat "compression" "n" "i" "d" (fun _ => none) 7 9).2.2.1 rfl

/-- C2: for a non-empty list of N batch snarks the folding loop of
`gen_recursion_snark` performs exactly N rounds (0 through N-1) and returns
the output of the final round (`foldSnarks`, whose last step is one `prove`
application on the last batch); `task.completed()` holds exactly when all
batches have been consumed; and the empty list fails the initial assert
(returning `none`) before any circuit construction. -/
theorem C2_recursion_termination (S : Type) (prove : Nat → S → S → S) (init : S)
    (l : List S) :
    gen_recursion_snark prove init ([] : List S) = none ∧
    (l ≠ [] → gen_recursion_snark prove init l =
      some (foldSnarks prove 0 init l, l.length)) ∧
    (∀ k, ((RecursionTask.new (l.drop k)).completed = true ↔ l.length ≤ k)) ∧
    (∀ (front : List S) (last : S),
      foldSnarks prove 0 init (front ++ [last]) =
        prove front.length last (foldSnarks prove 0 init front)) := by
  refine ⟨rfl, fun hne => ?_, fun k => ?_, fun front last => by
    simpa using foldSnarks_append prove front last 0 init⟩
  · rw [gen_recursion_snark]
    simp only [List.isEmpty_iff, hne, if_false, recursionLoop_new_eq]
    simp
  · simp [RecursionTask.new, RecursionTask.completed, List.isEmpty_iff,
      List.drop_eq_nil_iff]

/-- C2 witness: folding two concrete batch snarks terminates in exactly two
rounds with the folded result. -/
theorem C2_recursion_termination_witness :
    gen_recursion_snark (fun n b cur => cur + b + n) 0 [3, 4] =
      some (foldSnarks (fun n b cur => cur + b + n) 0 0 [3, 4], 2) :=
  (C2_recursion_termination Nat (fun n b cur => cur + b + n) 0 [3, 4]).2.1 (by decide)

/-- C3: `BlobConsistencyWitness::new` is deterministic — for any fixed
external collaborators (SHA-256, KZG commitment, point-evaluation witness
generator), two invocations on identical raw bytes and identical batch data
produce identical witnesses, and every accessor returns identical values in
both runs. -/
theorem C3_blob_witness_determinism (B : Type) (sha kzg_commit : List Nat → List Nat)
    (pea : B → List Nat → List Nat → PointEvaluationAssignments)
    (bytes₁ bytes₂ : List Nat) (bd₁ bd₂ : B)
    (hb : bytes₁ = bytes₂) (hd : bd₁ = bd₂) :
    BlobConsistencyWitness.new sha kzg_commit pea bytes₁ bd₁ =
      BlobConsistencyWitness.new sha kzg_commit pea bytes₂ bd₂ ∧
    (BlobConsistencyWitness.new sha kzg_commit pea bytes₁ bd₁).map
        BlobConsistencyWitness.id =
      (BlobConsistencyWitness.new sha kzg_commit pea bytes₂ bd₂).map
        BlobConsistencyWitness.id ∧
    (BlobConsistencyWitness.new sha kzg_commit pea bytes₁ bd₁).map
        BlobConsistencyWitness.challenge_digest_word =
      (BlobConsistencyWitness.new sha kzg_commit pea bytes₂ bd₂).map
        BlobConsistencyWitness.challenge_digest_word ∧
    (BlobConsistencyWitness.new sha kzg_commit pea bytes₁ bd₁).map
        BlobConsistencyWitness.challenge =
      (BlobConsistencyWitness.new sha kzg_commit pea bytes₂ bd₂).map
        BlobConsistencyWitness.challenge ∧
    (BlobConsistencyWitness.new sha kzg_commit pea bytes₁ bd₁).map
        BlobConsistencyWitness.evaluation_acc =
      (BlobConsistencyWitness.new sha kzg_commit pea bytes₂ bd₂).map
        BlobConsistencyWitness.evaluation_acc ∧
    (BlobConsistencyWitness.new sha kzg_commit pea bytes₁ bd₁).map
        BlobConsistencyWitness.blob_data_proof =
      (BlobConsistencyWitness.new sha kzg_commit pea bytes₂ bd₂).map
        BlobConsistencyWitness.blob_data_proof := by
  subst hb
  subst hd
  exact ⟨rfl, rfl, rfl, rfl, rfl, rfl⟩

/-- C3 witness: two invocations on the same concrete inputs coincide. -/
theorem C3_blob_witness_determinism_witness :
    BlobConsistencyWitness.new (fun _ => []) (fun _ => []) (fun _ _ _ => ⟨0, 0⟩) [] (0 : Nat) =
      BlobConsistencyWitness.new (fun _ => []) (fun _ => []) (fun _ _ _ => ⟨0, 0⟩) [] (0 : Nat) :=
  (C3_blob_witness_determinism Nat (fun _ => []) (fun _ => []) (fun _ _ _ => ⟨0, 0⟩)
    [] [] 0 0 rfl rfl).1

/-- C5: serializing a single-column instance matrix succeeds, produces a byte
string whose length is a multiple of 32, and deserializing those bytes
reproduces exactly the original single-column matrix. -/
theorem C5_instances_roundtrip (inst : List Fr) :
    serialize_instances [inst] = some (serialize_instance inst) ∧
    (serialize_instance inst).length % 32 = 0 ∧
    ProofV2.deserialize_instances (serialize_instance inst) = some [inst] := by
  refine ⟨rfl, ?_, ?_⟩
  · rw [length_serialize_instance]
    omega
  · simp [ProofV2.deserialize_instances, deserializeChunks_serialize]

/-- C10: the serialization interface only supports single-column instance
matrices — `serialize_instances` succeeds exactly on one-column input (so
`InnerProof::new`, `InnerProof::from_snark` and `ProofV2::new` require a
single instance column), and both deserializers always return a one-column
matrix. -/
theorem C10_single_column_interface :
    (∀ m : List (List Fr), (serialize_instances m).isSome ↔ m.length = 1) ∧
    (∀ (bytes : List Nat) (res : List (List Fr)),
      ProofV2.deserialize_instances bytes = some res → res.length = 1) ∧
    (∀ (p : InnerProof) (res : List (List Fr)),
      InnerProof.decoded_instances p = some res → res.length = 1) ∧
    (∀ (proof : List Nat) (instances : List (List Fr)) (vk : List Nat),
      (InnerProof.new proof instances vk).isSome ↔ instances.length = 1) ∧
    (∀ (snark : Snark) (vk : List Nat),
      (InnerProof.from_snark snark vk).isSome ↔ snark.instances.length = 1) ∧
    (∀ (Inner : Type) (snark : Snark) (vk : List Nat) (inner : Inner),
      (ProofV2.new snark vk inner).isSome ↔ snark.instances.length = 1) := by
  refine ⟨serialize_instances_isSome_iff, ?_, ?_, ?_, ?_, ?_⟩
  · intro bytes res h
    simp only [ProofV2.deserialize_instances, Option.map_eq_some'] at h
    obtain ⟨v, -, hv⟩ := h
    simp [← hv]
  · intro p res h
    simp only [InnerProof.decoded_instances, Option.map_eq_some'] at h
    obtain ⟨v, -, hv⟩ := h
    simp [← hv]
  · intro proof instances vk
    rw [← serialize_instances_isSome_iff]
    simp [InnerProof.new]
  · intro snark vk
    rw [← serialize_instances_isSome_iff]
    simp [InnerProof.from_snark]
  · intro Inner snark vk inner
    rw [← serialize_instances_isSome_iff]
    simp [ProofV2.new]

/-- C10 witness: deserializing an empty byte string yields a matrix with
exactly one (empty) column. -/
theorem C10_single_column_interface_witness :
    ([([] : List Fr)] : List (List Fr)).length = 1 :=
  C10_single_column_interface.2.1 [] [([] : List Fr)]
    (by simp [ProofV2.deserialize_instances, chunks32_nil, deserializeChunks])

/-- C7: for inputs of at most `4096 * 31` bytes, `get_coefficients` returns
exactly `BLOB_WIDTH = 4096` coefficients built from a byte matrix in which
input byte `i` occupies big-endian byte position `1 + (i % 31)` of coefficient
`i / 31`; every position not covered by an input byte — in particular the top
byte of every coefficient — is zero, so every coefficient is below `2 ^ 248`
and within the BLS scalar field's canonical range; longer inputs are
rejected. -/
theorem C7_get_coefficients (bytes : List Nat)
    (hlen : bytes.length ≤ BLOB_WIDTH * N_DATA_BYTES_PER_COEFFICIENT)
    (hb : ∀ x ∈ bytes, x < 256) :
    get_coefficients bytes =
      some ((List.range BLOB_WIDTH).map fun j =>
        beBytesToNat ((List.range N_BYTES_U256).map
          (fillCoefficients 0 bytes zeroCoeffMat j))) ∧
    (∀ cs, get_coefficients bytes = some cs → cs.length = BLOB_WIDTH) ∧
    (∀ i, i < bytes.length →
      fillCoefficients 0 bytes zeroCoeffMat (i / 31) (1 + i % 31) = bytes.getD i 0) ∧
    (∀ j k, ¬(1 ≤ k ∧ k ≤ 31 ∧ 31 * j + (k - 1) < bytes.length) →
      fillCoefficients 0 bytes zeroCoeffMat j k = 0) ∧
    (∀ j, fillCoefficients 0 bytes zeroCoeffMat j 0 = 0) ∧
    (∀ cs, get_coefficients bytes = some cs →
      ∀ c ∈ cs, c < 2 ^ 248 ∧ c < BLS_MODULUS) ∧
    (∀ bytes₂ : List Nat, N_BLOB_BYTES < bytes₂.length →
      get_coefficients bytes₂ = none) := by
  have hsome : get_coefficients bytes =
      some ((List.range BLOB_WIDTH).map fun j =>
        beBytesToNat ((List.range N_BYTES_U256).map
          (fillCoefficients 0 bytes zeroCoeffMat j))) := by
    unfold get_coefficients
    rw [if_pos (show bytes.length ≤ N_BLOB_BYTES from hlen)]
  refine ⟨hsome, ?_, ?_, ?_, ?_, ?_, ?_⟩
  · intro cs hcs
    rw [hsome] at hcs
    obtain rfl := Option.some.inj hcs
    simp
  · intro i hi
    rw [fillCoefficients_zero_spec]
    have hp : 31 * (i / 31) + (1 + i % 31 - 1) = i := by omega
    rw [hp, if_pos ⟨by omega, by omega, hi⟩]
  · intro j k hnk
    rw [fillCoefficients_zero_spec, if_neg hnk]
  · intro j
    rw [fillCoefficients_zero_spec, if_neg (by omega)]
  · intro cs hcs c hc
    rw [hsome] at hcs
    obtain rfl := Option.some.inj hcs
    simp only [List.mem_map, List.mem_range] at hc
    obtain ⟨j, hj, rfl⟩ := hc
    have hfill_lt : ∀ k, fillCoefficients 0 bytes zeroCoeffMat j k < 256 := by
      intro k
      rw [fillCoefficients_zero_spec]
      split_ifs
      · exact getD_lt_of_bytes bytes hb _
      · norm_num
    have htop : fillCoefficients 0 bytes zeroCoeffMat j 0 = 0 := by
      rw [fillCoefficients_zero_spec, if_neg (by omega)]
    have hmap : (List.range N_BYTES_U256).map (fillCoefficients 0 bytes zeroCoeffMat j) =
        0 :: (List.range 31).map
          (fun k => fillCoefficients 0 bytes zeroCoeffMat j (Nat.succ k)) := by
      rw [show N_BYTES_U256 = 31 + 1 from rfl, List.range_succ_eq_map, List.map_cons,
        List.map_map, htop]
      rfl
    have hlt : beBytesToNat ((List.range N_BYTES_U256).map
        (fillCoefficients 0 bytes zeroCoeffMat j)) < 2 ^ 248 := by
      rw [hmap]
      refine beBytesToNat_cons_zero_lt _ (by simp) ?_
      intro x hx
      obtain ⟨k, -, rfl⟩ := List.mem_map.mp hx
      exact hfill_lt _
    exact ⟨hlt, lt_trans hlt two_pow_248_lt_BLS_MODULUS⟩
  · intro bytes₂ h₂
    unfold get_coefficients
    rw [if_neg (by omega)]

/-- C7 witness: the first input byte of a concrete two-byte input lands at
big-endian byte position 1 of coefficient 0. -/
theorem C7_get_coefficients_witness :
    fillCoefficients 0 [7, 8] zeroCoeffMat 0 1 = 7 :=
  (C7_get_coefficients [7, 8] (by decide) (by decide)).2.2.1 0 (by decide)

end ZkevmSpec
